import Mathlib

/-!
Verification development for the multi-format story generation dispatcher.

The repository drives ComfyUI generation jobs across a static pool of remote
workers.  This file gives a shallow embedding of the core logic of
`scripts/generate_api.py` and `scripts/comfyui_server.py`:

* the workflow graph data model (nested dicts keyed by node id, each node a
  `class_type` tag plus an `inputs` map whose values are literals or
  two-element `[producer_id, slot]` bindings);
* the five workflow builder functions;
* the routing of image / video jobs to servers via the static `MODEL_SERVER`
  table;
* the polling loop `poll_completion`;
* the health prober `check_server` / `check_all_servers`;
* the artifact retrieval loop of `generate_images` / `generate_videos`.

Network effects are made explicit as function parameters: the sequence of
worker responses observed by a polling loop, the per-worker probe responses,
the order in which concurrent probe futures complete, and the per-file fetch
results of the retriever.  Python integers are modelled by `Int` (`Nat` where
the source value is a step count used with floor division `//`, which agrees
with `Nat` division on non-negative values), Python floats that appear only as
literal graph parameters by `Rat`.
-/

/-- A literal parameter value inside a workflow node: Python string, int,
float or bool as written in the source. -/
inductive Lit where
  | str : String → Lit
  | int : Int → Lit
  | float : Rat → Lit
  | bool : Bool → Lit
deriving DecidableEq

/-- A value of a node's `inputs` map: either a literal or an input binding
`[producer_node_id, output_slot]` referencing another node's output. -/
inductive InputVal where
  | lit : Lit → InputVal
  | binding : String → Nat → InputVal
deriving DecidableEq

/-- A workflow node: the remote operation tag (`class_type`) and its
`inputs` map, kept in source order. -/
structure Node where
  classType : String
  inputs : List (String × InputVal)
deriving DecidableEq

/-- A workflow graph: the JSON object submitted as `{"prompt": ...}`,
a mapping from node identifier to node (insertion order kept). -/
abbrev Graph := List (String × Node)

/-- Per-server model filename table `NEUMANN_MODELS` of `generate_api.py`. -/
def NEUMANN_MODELS : String → String := fun k =>
  if k = "flux_dev_unet" then "flux1-dev-fp8-e4m3fn.safetensors"
  else if k = "flux_schnell_unet" then "flux1-schnell-fp8-e4m3fn.safetensors"
  else if k = "t5xxl" then "t5xxl_fp8_e4m3fn.safetensors"
  else ""

/-- `workflow_flux_dev(prompt, width, height, seed)` of `generate_api.py`:
FLUX.1 Dev, 20 steps, guidance 3.5, single-pass topology ending in the
`SaveImage` node `"10"`. -/
def workflow_flux_dev (prompt : String) (width height : Int) (seed : Int) : Graph :=
  [ ("1", ⟨"UNETLoader",
      [("unet_name", .lit (.str (NEUMANN_MODELS "flux_dev_unet"))),
       ("weight_dtype", .lit (.str "fp8_e4m3fn"))]⟩),
    ("2", ⟨"DualCLIPLoader",
      [("clip_name1", .lit (.str "clip_l.safetensors")),
       ("clip_name2", .lit (.str (NEUMANN_MODELS "t5xxl"))),
       ("type", .lit (.str "flux"))]⟩),
    ("3", ⟨"CLIPTextEncode",
      [("text", .lit (.str prompt)), ("clip", .binding "2" 0)]⟩),
    ("4", ⟨"CLIPTextEncode",
      [("text", .lit (.str "")), ("clip", .binding "2" 0)]⟩),
    ("5", ⟨"FluxGuidance",
      [("guidance", .lit (.float 3.5)), ("conditioning", .binding "3" 0)]⟩),
    ("6", ⟨"EmptySD3LatentImage",
      [("width", .lit (.int width)), ("height", .lit (.int height)),
       ("batch_size", .lit (.int 1))]⟩),
    ("7", ⟨"KSampler",
      [("seed", .lit (.int seed)), ("steps", .lit (.int 20)),
       ("cfg", .lit (.float 1.0)),
       ("sampler_name", .lit (.str "euler")), ("scheduler", .lit (.str "simple")),
       ("denoise", .lit (.float 1.0)),
       ("model", .binding "1" 0), ("positive", .binding "5" 0),
       ("negative", .binding "4" 0), ("latent_image", .binding "6" 0)]⟩),
    ("8", ⟨"VAELoader", [("vae_name", .lit (.str "ae.safetensors"))]⟩),
    ("9", ⟨"VAEDecode",
      [("samples", .binding "7" 0), ("vae", .binding "8" 0)]⟩),
    ("10", ⟨"SaveImage",
      [("filename_prefix", .lit (.str "gentest")), ("images", .binding "9" 0)]⟩) ]

/-- `workflow_flux_schnell(prompt, width, height, seed)` of `generate_api.py`:
FLUX.1 Schnell, 4 steps, single-pass topology ending in `SaveImage` node
`"9"`. -/
def workflow_flux_schnell (prompt : String) (width height : Int) (seed : Int) : Graph :=
  [ ("1", ⟨"UNETLoader",
      [("unet_name", .lit (.str (NEUMANN_MODELS "flux_schnell_unet"))),
       ("weight_dtype", .lit (.str "fp8_e4m3fn"))]⟩),
    ("2", ⟨"DualCLIPLoader",
      [("clip_name1", .lit (.str "clip_l.safetensors")),
       ("clip_name2", .lit (.str (NEUMANN_MODELS "t5xxl"))),
       ("type", .lit (.str "flux"))]⟩),
    ("3", ⟨"CLIPTextEncode",
      [("text", .lit (.str prompt)), ("clip", .binding "2" 0)]⟩),
    ("4", ⟨"CLIPTextEncode",
      [("text", .lit (.str "")), ("clip", .binding "2" 0)]⟩),
    ("5", ⟨"EmptySD3LatentImage",
      [("width", .lit (.int width)), ("height", .lit (.int height)),
       ("batch_size", .lit (.int 1))]⟩),
    ("6", ⟨"KSampler",
      [("seed", .lit (.int seed)), ("steps", .lit (.int 4)),
       ("cfg", .lit (.float 1.0)),
       ("sampler_name", .lit (.str "euler")), ("scheduler", .lit (.str "simple")),
       ("denoise", .lit (.float 1.0)),
       ("model", .binding "1" 0), ("positive", .binding "3" 0),
       ("negative", .binding "4" 0), ("latent_image", .binding "5" 0)]⟩),
    ("7", ⟨"VAELoader", [("vae_name", .lit (.str "ae.safetensors"))]⟩),
    ("8", ⟨"VAEDecode",
      [("samples", .binding "6" 0), ("vae", .binding "7" 0)]⟩),
    ("9", ⟨"SaveImage",
      [("filename_prefix", .lit (.str "gentest")), ("images", .binding "8" 0)]⟩) ]

/-- `workflow_sd35(prompt, neg_prompt, width, height, seed)` of
`generate_api.py`: SD3.5 Large, 28 steps, cfg 4.5, single-pass topology
ending in `SaveImage` node `"7"`. -/
def workflow_sd35 (prompt neg : String) (width height : Int) (seed : Int) : Graph :=
  [ ("1", ⟨"CheckpointLoaderSimple",
      [("ckpt_name", .lit (.str "sd3.5_large_fp8_scaled.safetensors"))]⟩),
    ("2", ⟨"CLIPTextEncode",
      [("text", .lit (.str prompt)), ("clip", .binding "1" 1)]⟩),
    ("3", ⟨"CLIPTextEncode",
      [("text", .lit (.str neg)), ("clip", .binding "1" 1)]⟩),
    ("4", ⟨"EmptySD3LatentImage",
      [("width", .lit (.int width)), ("height", .lit (.int height)),
       ("batch_size", .lit (.int 1))]⟩),
    ("5", ⟨"KSampler",
      [("seed", .lit (.int seed)), ("steps", .lit (.int 28)),
       ("cfg", .lit (.float 4.5)),
       ("sampler_name", .lit (.str "euler")), ("scheduler", .lit (.str "normal")),
       ("denoise", .lit (.float 1.0)),
       ("model", .binding "1" 0), ("positive", .binding "2" 0),
       ("negative", .binding "3" 0), ("latent_image", .binding "4" 0)]⟩),
    ("6", ⟨"VAEDecode",
      [("samples", .binding "5" 0), ("vae", .binding "1" 2)]⟩),
    ("7", ⟨"SaveImage",
      [("filename_prefix", .lit (.str "gentest")), ("images", .binding "6" 0)]⟩) ]

/-- `workflow_z_turbo(prompt, width, height, seed)` of `generate_api.py`:
z_image_turbo (Lumina2), 8 steps, single-pass topology ending in `SaveImage`
node `"10"`. -/
def workflow_z_turbo (prompt : String) (width height : Int) (seed : Int) : Graph :=
  [ ("1", ⟨"UNETLoader",
      [("unet_name", .lit (.str "z_image_turbo_bf16.safetensors")),
       ("weight_dtype", .lit (.str "default"))]⟩),
    ("2", ⟨"CLIPLoader",
      [("clip_name", .lit (.str "qwen_3_4b.safetensors")),
       ("type", .lit (.str "lumina2"))]⟩),
    ("3", ⟨"CLIPTextEncode",
      [("text", .lit (.str prompt)), ("clip", .binding "2" 0)]⟩),
    ("4", ⟨"CLIPTextEncode",
      [("text", .lit (.str "")), ("clip", .binding "2" 0)]⟩),
    ("5", ⟨"ModelSamplingAuraFlow",
      [("shift", .lit (.float 3.0)), ("model", .binding "1" 0)]⟩),
    ("6", ⟨"EmptySD3LatentImage",
      [("width", .lit (.int width)), ("height", .lit (.int height)),
       ("batch_size", .lit (.int 1))]⟩),
    ("7", ⟨"KSampler",
      [("seed", .lit (.int seed)), ("steps", .lit (.int 8)),
       ("cfg", .lit (.float 1.0)),
       ("sampler_name", .lit (.str "res_multistep")), ("scheduler", .lit (.str "simple")),
       ("denoise", .lit (.float 1.0)),
       ("model", .binding "5" 0), ("positive", .binding "3" 0),
       ("negative", .binding "4" 0), ("latent_image", .binding "6" 0)]⟩),
    ("8", ⟨"VAELoader", [("vae_name", .lit (.str "ae.safetensors"))]⟩),
    ("9", ⟨"VAEDecode",
      [("samples", .binding "7" 0), ("vae", .binding "8" 0)]⟩),
    ("10", ⟨"SaveImage",
      [("filename_prefix", .lit (.str "gentest")), ("images", .binding "9" 0)]⟩) ]

/-- The negative prompt constant of `workflow_wan_i2v`. -/
def wanNegPrompt : String :=
  "色调艳丽，过曝，静态，细节模糊不清，字幕，风格，作品，画作，画面，静止，整体发灰，" ++
  "最差质量，低质量，JPEG压缩残留，丑陋的，残缺的，多余的手指，画得不好的手部，" ++
  "画得不好的脸部，畸形的，毁容的，形态畸形的肢体，手指融合，静止不动的画面，" ++
  "杂乱的背景，三条腿，背景人很多，倒着走"

/-- `workflow_wan_i2v(motion_prompt, image_filename, seed, steps=20, length=49)`
of `generate_api.py`: Wan 2.2 I2V dual-expert two-pass topology.  Pass 1
(node `"11"`) runs the high-noise expert over steps `0 .. steps // 2` with
noise added and leftover noise preserved; pass 2 (node `"12"`) runs the
low-noise expert from `steps // 2` onward, consuming pass 1's latent, without
re-adding noise.  Terminal node is `SaveAnimatedWEBP` `"14"`.  The source
callers use the Python default arguments `steps=20, length=49`. -/
def workflow_wan_i2v (motion image : String) (seed : Int) (steps : Nat) (length : Int) : Graph :=
  let half_steps : Nat := steps / 2
  [ ("1", ⟨"UNETLoader",
      [("unet_name", .lit (.str "wan2.2_i2v_high_noise_14B_fp16.safetensors")),
       ("weight_dtype", .lit (.str "default"))]⟩),
    ("2", ⟨"UNETLoader",
      [("unet_name", .lit (.str "wan2.2_i2v_low_noise_14B_fp16.safetensors")),
       ("weight_dtype", .lit (.str "default"))]⟩),
    ("3", ⟨"ModelSamplingSD3",
      [("model", .binding "1" 0), ("shift", .lit (.float 8.0))]⟩),
    ("4", ⟨"ModelSamplingSD3",
      [("model", .binding "2" 0), ("shift", .lit (.float 8.0))]⟩),
    ("5", ⟨"CLIPLoader",
      [("clip_name", .lit (.str "umt5_xxl_fp8_e4m3fn_scaled.safetensors")),
       ("type", .lit (.str "wan"))]⟩),
    ("6", ⟨"VAELoader", [("vae_name", .lit (.str "wan_2.1_vae.safetensors"))]⟩),
    ("7", ⟨"CLIPTextEncode",
      [("text", .lit (.str motion)), ("clip", .binding "5" 0)]⟩),
    ("8", ⟨"CLIPTextEncode",
      [("text", .lit (.str wanNegPrompt)), ("clip", .binding "5" 0)]⟩),
    ("9", ⟨"LoadImage", [("image", .lit (.str image))]⟩),
    ("10", ⟨"WanImageToVideo",
      [("positive", .binding "7" 0), ("negative", .binding "8" 0),
       ("vae", .binding "6" 0),
       ("width", .lit (.int 832)), ("height", .lit (.int 480)),
       ("length", .lit (.int length)), ("batch_size", .lit (.int 1)),
       ("start_image", .binding "9" 0)]⟩),
    ("11", ⟨"KSamplerAdvanced",
      [("model", .binding "3" 0),
       ("positive", .binding "10" 0), ("negative", .binding "10" 1),
       ("latent_image", .binding "10" 2),
       ("noise_seed", .lit (.int seed)), ("steps", .lit (.int steps)),
       ("cfg", .lit (.float 3.5)),
       ("sampler_name", .lit (.str "euler")), ("scheduler", .lit (.str "simple")),
       ("add_noise", .lit (.str "enable")),
       ("start_at_step", .lit (.int 0)), ("end_at_step", .lit (.int half_steps)),
       ("return_with_leftover_noise", .lit (.str "enable"))]⟩),
    ("12", ⟨"KSamplerAdvanced",
      [("model", .binding "4" 0),
       ("positive", .binding "10" 0), ("negative", .binding "10" 1),
       ("latent_image", .binding "11" 0),
       ("noise_seed", .lit (.int seed)), ("steps", .lit (.int steps)),
       ("cfg", .lit (.float 3.5)),
       ("sampler_name", .lit (.str "euler")), ("scheduler", .lit (.str "simple")),
       ("add_noise", .lit (.str "disable")),
       ("start_at_step", .lit (.int half_steps)), ("end_at_step", .lit (.int 10000)),
       ("return_with_leftover_noise", .lit (.str "disable"))]⟩),
    ("13", ⟨"VAEDecode",
      [("samples", .binding "12" 0), ("vae", .binding "6" 0)]⟩),
    ("14", ⟨"SaveAnimatedWEBP",
      [("filename_prefix", .lit (.str "gentest_vid")), ("images", .binding "13" 0),
       ("fps", .lit (.float 16.0)), ("lossless", .lit (.bool true)),
       ("quality", .lit (.int 100)), ("method", .lit (.str "default"))]⟩) ]

/-- The node identifiers (dict keys) of a graph. -/
def keys (g : Graph) : List String := g.map Prod.fst

/-- Association-list lookup of a node by its identifier. -/
def lookupNode : Graph → String → Option Node
  | [], _ => none
  | (i, n) :: g, id => if i = id then some n else lookupNode g id

/-- The value bound to parameter `p` of node `id`, if any. -/
def inputOf (g : Graph) (id p : String) : Option InputVal :=
  (lookupNode g id).bind (fun nd => nd.inputs.lookup p)

/-- C1: in the dual-expert two-pass builder `workflow_wan_i2v`, for every step
count `steps` the step boundary is exactly `steps / 2` (floor division):
pass 1 (node `"11"`) ends at `steps / 2`, pass 2 (node `"12"`) starts at the
same `steps / 2`, both passes carry the identical `noise_seed`, pass 1 has
`add_noise` enabled and returns with leftover noise preserved, pass 2 has
`add_noise` disabled; moreover pass 2's latent input is bound to pass 1's
output, and the concrete boundaries for `steps = 20` and `steps = 7` are `10`
and `3`. -/
theorem wan_i2v_two_pass_contract (motion image : String) (seed : Int)
    (steps : Nat) (length : Int) :
    inputOf (workflow_wan_i2v motion image seed steps length) "11" "end_at_step"
      = some (.lit (.int (steps / 2))) ∧
    inputOf (workflow_wan_i2v motion image seed steps length) "12" "start_at_step"
      = some (.lit (.int (steps / 2))) ∧
    inputOf (workflow_wan_i2v motion image seed steps length) "11" "noise_seed"
      = some (.lit (.int seed)) ∧
    inputOf (workflow_wan_i2v motion image seed steps length) "12" "noise_seed"
      = some (.lit (.int seed)) ∧
    inputOf (workflow_wan_i2v motion image seed steps length) "11" "add_noise"
      = some (.lit (.str "enable")) ∧
    inputOf (workflow_wan_i2v motion image seed steps length) "11" "return_with_leftover_noise"
      = some (.lit (.str "enable")) ∧
    inputOf (workflow_wan_i2v motion image seed steps length) "12" "add_noise"
      = some (.lit (.str "disable")) ∧
    inputOf (workflow_wan_i2v motion image seed steps length) "12" "latent_image"
      = some (.binding "11" 0) ∧
    inputOf (workflow_wan_i2v motion image seed 20 length) "11" "end_at_step"
      = some (.lit (.int 10)) ∧
    inputOf (workflow_wan_i2v motion image seed 7 length) "11" "end_at_step"
      = some (.lit (.int 3)) :=
  ⟨rfl, rfl, rfl, rfl, rfl, rfl, rfl, rfl, rfl, rfl⟩

/-- The dependency edges of a graph: one pair `(consumer, producer)` per
input binding. -/
def edges (g : Graph) : List (String × String) :=
  g.flatMap (fun p =>
    p.2.inputs.filterMap (fun pv =>
      match pv.2 with
      | .binding q _ => some (p.1, q)
      | .lit _ => none))

/-- Non-empty directed paths along a list of edges. -/
inductive Reaches (es : List (String × String)) : String → String → Prop where
  | single {a b : String} : (a, b) ∈ es → Reaches es a b
  | cons {a b c : String} : (a, b) ∈ es → Reaches es b c → Reaches es a c

/-- A graph's binding edges are acyclic: no node depends, directly or
transitively, on itself. -/
def Acyclic (es : List (String × String)) : Prop := ∀ a, ¬ Reaches es a a

/-- An input value is bound in `g`: a literal, or a binding whose producer
node id is a key of `g`. -/
def BoundIn (g : Graph) : InputVal → Prop
  | .lit _ => True
  | .binding q _ => q ∈ keys g

/-- Invariant 2 of the spec: every producer node id referenced by a binding
anywhere in the graph is a key present in the graph. -/
def BindingsClosed (g : Graph) : Prop :=
  ∀ p ∈ g, ∀ pv ∈ p.2.inputs, BoundIn g pv.2

/-- Invariant 3 of the spec: every node reachable from the designated
terminal node is present, and all of its parameters are bound to a literal
or a valid binding. -/
def TerminalBound (g : Graph) (t : String) : Prop :=
  ∀ n, (n = t ∨ Reaches (edges g) t n) →
    ∃ nd, lookupNode g n = some nd ∧ ∀ pv ∈ nd.inputs, BoundIn g pv.2

/-- The three structural invariants a builder's graph must satisfy. -/
def StructOk (g : Graph) (t : String) : Prop :=
  Acyclic (edges g) ∧ BindingsClosed g ∧ TerminalBound g t

/-- Executable check for `BindingsClosed`. -/
def bindingsClosedB (g : Graph) : Bool :=
  g.all (fun p => p.2.inputs.all (fun pv =>
    match pv.2 with
    | .lit _ => true
    | .binding q _ => (keys g).contains q))

/-- Executable check that `rank` strictly decreases along every edge. -/
def rankOkB (es : List (String × String)) (rank : String → Nat) : Bool :=
  es.all (fun e => rank e.2 < rank e.1)

/-- Numeric rank of the node identifiers used by the builders. -/
def rankOfId : String → Nat
  | "1" => 1 | "2" => 2 | "3" => 3 | "4" => 4 | "5" => 5
  | "6" => 6 | "7" => 7 | "8" => 8 | "9" => 9 | "10" => 10
  | "11" => 11 | "12" => 12 | "13" => 13 | "14" => 14
  | _ => 0

theorem acyclic_of_rank (es : List (String × String)) (rank : String → Nat)
    (h : rankOkB es rank = true) : Acyclic es := by
  have hlt : ∀ a b, Reaches es a b → rank b < rank a := by
    intro a b r
    induction r with
    | single hab =>
        exact of_decide_eq_true (List.all_eq_true.mp h _ hab)
    | cons hab _ ih =>
        exact lt_trans ih (of_decide_eq_true (List.all_eq_true.mp h _ hab))
  intro a hr
  exact absurd (hlt a a hr) (lt_irrefl _)

theorem lookupNode_mem {g : Graph} {n : String} (h : n ∈ keys g) :
    ∃ nd, lookupNode g n = some nd ∧ (n, nd) ∈ g := by
  induction g with
  | nil => simp [keys] at h
  | cons p g ih =>
      obtain ⟨i, nd0⟩ := p
      by_cases hp : i = n
      · subst hp
        exact ⟨nd0, by simp [lookupNode], List.mem_cons_self _ _⟩
      · have hn : n ∈ keys g := by
          have h' : n = i ∨ n ∈ List.map Prod.fst g := by simpa [keys] using h
          rcases h' with h' | h'
          · exact absurd h'.symm hp
          · exact h'
        rcases ih hn with ⟨nd, h1, h2⟩
        exact ⟨nd, by simpa [lookupNode, hp] using h1, List.mem_cons_of_mem _ h2⟩

theorem bindingsClosed_of_check {g : Graph} (h : bindingsClosedB g = true) :
    BindingsClosed g := by
  intro p hp pv hpv
  have h1 := List.all_eq_true.mp h _ hp
  have h2 := List.all_eq_true.mp h1 _ hpv
  cases hv : pv.2 with
  | lit l => simp [BoundIn]
  | binding q s =>
      rw [hv] at h2
      simp only [BoundIn]
      exact List.mem_of_elem_eq_true h2

theorem edge_target_mem {g : Graph} (hb : BindingsClosed g) :
    ∀ e ∈ edges g, e.2 ∈ keys g := by
  intro e he
  simp only [edges, List.mem_flatMap] at he
  rcases he with ⟨p, hp, he⟩
  rcases List.mem_filterMap.mp he with ⟨pv, hpv, hmatch⟩
  cases hv : pv.2 with
  | lit l => rw [hv] at hmatch; simp at hmatch
  | binding q s =>
      rw [hv] at hmatch
      simp only [Option.some.injEq] at hmatch
      have hbd := hb p hp pv hpv
      rw [hv] at hbd
      rw [← hmatch]
      simpa [BoundIn] using hbd

theorem structOk_of_checks (g : Graph) (t : String) (rank : String → Nat)
    (hb : bindingsClosedB g = true)
    (ht : (keys g).contains t = true)
    (hr : rankOkB (edges g) rank = true) : StructOk g t := by
  have hclosed := bindingsClosed_of_check hb
  have hreach : ∀ a b, Reaches (edges g) a b → b ∈ keys g := by
    intro a b r
    induction r with
    | single hab => exact edge_target_mem hclosed _ hab
    | cons hab _ ih => exact ih
  refine ⟨acyclic_of_rank _ _ hr, hclosed, ?_⟩
  intro n hn
  have hmem : n ∈ keys g := by
    rcases hn with rfl | hrch
    · exact List.mem_of_elem_eq_true ht
    · exact hreach _ _ hrch
  rcases lookupNode_mem hmem with ⟨nd, h1, h2⟩
  exact ⟨nd, h1, fun pv hpv => hclosed _ h2 pv hpv⟩

/-- C2: for every parameter record, each of the five workflow builders
produces a graph satisfying the three structural invariants: the binding
graph is acyclic, every producer node id referenced by a `[producer, slot]`
binding is a key of the graph, and every node reachable from the terminal
save node is present with all of its parameters bound to a literal or a
valid binding. -/
theorem builders_struct_invariants (prompt neg motion image : String)
    (width height seed length : Int) (steps : Nat) :
    StructOk (workflow_flux_dev prompt width height seed) "10" ∧
    StructOk (workflow_flux_schnell prompt width height seed) "9" ∧
    StructOk (workflow_sd35 prompt neg width height seed) "7" ∧
    StructOk (workflow_z_turbo prompt width height seed) "10" ∧
    StructOk (workflow_wan_i2v motion image seed steps length) "14" :=
  ⟨structOk_of_checks _ _ rankOfId rfl rfl rfl,
   structOk_of_checks _ _ rankOfId rfl rfl rfl,
   structOk_of_checks _ _ rankOfId rfl rfl rfl,
   structOk_of_checks _ _ rankOfId rfl rfl rfl,
   structOk_of_checks _ _ rankOfId rfl rfl rfl⟩

/-- One iteration's observation in the polling loop of `poll_completion`:
a transient I/O error (`URLError`, `OSError`, `JSONDecodeError` — connection
refused or malformed response, caught and swallowed), a history response not
yet containing the prompt id, or a status report with its `completed` flag
and optional `status_str`. -/
inductive PollResp where
  | ioError
  | missing
  | report (completed : Bool) (statusStr : Option String)
deriving DecidableEq

/-- Terminal outcome of `poll_completion`: the normal return (worker reported
`completed`), the `RuntimeError` raised on `status_str == "error"`, or the
`TimeoutError` raised when the deadline expires. -/
inductive PollOutcome where
  | done
  | failed
  | timedOut
deriving DecidableEq

/-- Shallow embedding of the `poll_completion` loop of `generate_api.py`.
The list holds the successive observations of the poll iterations that fit
before the deadline; an exhausted list is the elapsed timeout.  Each
iteration returns on `completed`, raises on `status_str == "error"`
(checked after `completed`), and otherwise sleeps and retries. -/
def poll_completion : List PollResp → PollOutcome
  | [] => .timedOut
  | .ioError :: rs => poll_completion rs
  | .missing :: rs => poll_completion rs
  | .report c s :: rs =>
      if c then .done
      else if s = some "error" then .failed
      else poll_completion rs

/-- An observation that neither completes nor reports an execution error. -/
def nonTerminalB : PollResp → Bool
  | .ioError => true
  | .missing => true
  | .report c s => !c && !(s = some "error")

/-- C3: (i) a run whose worker never reports the job completed nor an
execution error before the deadline ends in `timedOut` and never in
`failed`; (ii) a worker report with `status_str == "error"` (and the job not
completed) yields `failed` immediately, regardless of how many poll
intervals remain before the deadline; (iii) a transient I/O error and a
history response without the prompt id are swallowed and the poll simply
continues on the next interval. -/
theorem poll_completion_state_machine :
    (∀ rs : List PollResp, (∀ r ∈ rs, nonTerminalB r = true) →
      poll_completion rs = .timedOut ∧ poll_completion rs ≠ .failed) ∧
    (∀ (pre rest : List PollResp), (∀ r ∈ pre, nonTerminalB r = true) →
      poll_completion (pre ++ .report false (some "error") :: rest) = .failed) ∧
    (∀ rs : List PollResp,
      poll_completion (.ioError :: rs) = poll_completion rs ∧
      poll_completion (.missing :: rs) = poll_completion rs) := by
  have htime : ∀ rs : List PollResp, (∀ r ∈ rs, nonTerminalB r = true) →
      poll_completion rs = .timedOut := by
    intro rs h
    induction rs with
    | nil => rfl
    | cons r rs ih =>
        have hr := h r (List.mem_cons_self _ _)
        have htl := ih (fun x hx => h x (List.mem_cons_of_mem _ hx))
        cases r with
        | ioError => simpa [poll_completion] using htl
        | missing => simpa [poll_completion] using htl
        | report c s =>
            simp only [nonTerminalB, Bool.and_eq_true, Bool.not_eq_true'] at hr
            have hc : c = false := hr.1
            have hs : s ≠ some "error" := by
              intro hcontra
              have := hr.2
              rw [hcontra] at this
              simp at this
            subst hc
            simpa [poll_completion, hs] using htl
  refine ⟨fun rs h => ⟨htime rs h, by rw [htime rs h]; intro hc; cases hc⟩, ?_, ?_⟩
  · intro pre rest h
    induction pre with
    | nil => simp [poll_completion]
    | cons r pre ih =>
        have hr := h r (List.mem_cons_self _ _)
        have htl := ih (fun x hx => h x (List.mem_cons_of_mem _ hx))
        cases r with
        | ioError => simpa [poll_completion] using htl
        | missing => simpa [poll_completion] using htl
        | report c s =>
            simp only [nonTerminalB, Bool.and_eq_true, Bool.not_eq_true'] at hr
            have hc : c = false := hr.1
            have hs : s ≠ some "error" := by
              intro hcontra
              have := hr.2
              rw [hcontra] at this
              simp at this
            subst hc
            simpa [poll_completion, hs] using htl
  · intro rs
    exact ⟨rfl, rfl⟩

/-- Witness for `poll_completion_state_machine` at concrete runs. -/
theorem poll_completion_state_machine_app :
    poll_completion [.ioError, .missing, .report false none] = .timedOut ∧
    poll_completion ([.ioError] ++ .report false (some "error") :: [.report true none]) = .failed := by
  constructor
  · exact (poll_completion_state_machine.1 _ (by decide)).1
  · exact poll_completion_state_machine.2.1 [.ioError] [.report true none] (by decide)

/-- The wright server endpoint of `generate_api.py`. -/
def WRIGHT : String := "http://wright.gazelle-galaxy.ts.net:8188"

/-- The neumann server endpoint of `generate_api.py`. -/
def NEUMANN : String := "http://neumann.gazelle-galaxy.ts.net:8188"

/-- The static model-routing table `MODEL_SERVER` of `generate_api.py`:
FLUX models route to neumann, SD3.5 / z_turbo / Wan route to wright. -/
def MODEL_SERVER : String → Option String := fun m =>
  if m = "flux_dev" then some NEUMANN
  else if m = "flux_schnell" then some NEUMANN
  else if m = "sd35" then some WRIGHT
  else if m = "z_turbo" then some WRIGHT
  else if m = "wan_i2v" then some WRIGHT
  else none

/-- The routing decision of the submission loop in `generate_images`
(`generate_api.py` lines 1073–1075): the target is
`MODEL_SERVER.get(job["model"], servers[0])`; when that target is not among
the online servers the job is skipped (`continue`), which this embedding
reports as `none`.  `servers` is the online list from
`get_available_servers` (assumed non-empty, as `main` exits otherwise). -/
def routeImageJob (model : String) (servers : List String) : Option String :=
  let server := (MODEL_SERVER model).getD (servers.headD "")
  if servers.contains server then some server else none

/-- C4 counterexample: for the `flux_dev` family the single affinity worker
is neumann; with neumann offline and wright online the claim routes the job
to wright (the lowest-load worker of the full online set), but the code
skips the job: `routeImageJob` yields `none`, not `some WRIGHT`. -/
theorem route_no_fallback_cex :
    routeImageJob "flux_dev" [WRIGHT] = none ∧
    MODEL_SERVER "flux_dev" = some NEUMANN ∧ WRIGHT ≠ NEUMANN := by
  refine ⟨?_, rfl, by decide⟩
  decide

/-- C4 amended: worker selection in `generate_images` is a static
model → server table with no load awareness and no fallback; the job is
submitted to the table's server exactly when that server is online, and is
skipped (no submission anywhere) otherwise — in particular a job whose
affinity server is offline is never rerouted to another online worker. -/
theorem route_static_no_fallback (model server : String) (servers : List String)
    (h : MODEL_SERVER model = some server) :
    (servers.contains server = true → routeImageJob model servers = some server) ∧
    (servers.contains server = false → routeImageJob model servers = none) := by
  constructor
  · intro hin
    unfold routeImageJob
    rw [h]
    show (if servers.contains server = true then some server else none) = some server
    rw [hin]
    simp
  · intro hout
    unfold routeImageJob
    rw [h]
    show (if servers.contains server = true then some server else none) = none
    rw [hout]
    simp

/-- Witness for `route_static_no_fallback` at a concrete input. -/
theorem route_static_no_fallback_app :
    routeImageJob "flux_dev" [NEUMANN] = some NEUMANN :=
  (route_static_no_fallback "flux_dev" NEUMANN [NEUMANN] rfl).1 (by decide)

/-- C7 counterexample: called with a non-positive width and height (and an
empty prompt), `workflow_sd35` does not fail — it returns the full
seven-node graph with the out-of-range dimensions embedded as literals. -/
theorem builder_no_validation_cex :
    keys (workflow_sd35 "" "" 0 0 0) = ["1", "2", "3", "4", "5", "6", "7"] ∧
    inputOf (workflow_sd35 "" "" 0 0 0) "4" "width" = some (.lit (.int 0)) ∧
    inputOf (workflow_sd35 "" "" 0 0 0) "4" "height" = some (.lit (.int 0)) :=
  ⟨rfl, rfl, rfl⟩

/-- C7 amended: the builders perform no input validation at all.  For every
parameter record — including missing (empty) prompt text and out-of-range
(non-positive) dimensions — the construction functions totally return their
fixed-topology graph with the supplied values embedded as literals; no
`InvalidParameters` failure path exists in the code. -/
theorem builders_total_no_validation (prompt neg : String) (width height seed : Int) :
    keys (workflow_sd35 prompt neg width height seed) = ["1", "2", "3", "4", "5", "6", "7"] ∧
    inputOf (workflow_sd35 prompt neg width height seed) "4" "width" = some (.lit (.int width)) ∧
    inputOf (workflow_sd35 prompt neg width height seed) "2" "text" = some (.lit (.str prompt)) ∧
    keys (workflow_flux_dev prompt width height seed)
      = ["1", "2", "3", "4", "5", "6", "7", "8", "9", "10"] ∧
    inputOf (workflow_flux_dev prompt width height seed) "6" "width" = some (.lit (.int width)) ∧
    inputOf (workflow_flux_dev prompt width height seed) "6" "height" = some (.lit (.int height)) :=
  ⟨rfl, rfl, rfl, rfl, rfl, rfl⟩

/-- A video job as assembled by `build_video_jobs`: the output filename stem
(client identifier), the pipeline family, and the declared dependency
artifact (the source image). -/
structure VideoJob where
  filename : String
  model : String
  source_image : String
deriving DecidableEq

/-- The submission plan of `generate_videos` (`generate_api.py` lines
1122–1155): the dependency check loop `return`s out of the whole function as
soon as any job's source image is absent locally, so in that case no job at
all is submitted; otherwise each job whose routed server
(`MODEL_SERVER.get(model, WRIGHT)`) is online is uploaded and submitted.
Uploads are modelled as succeeding; the result lists the `(filename, server)`
pairs for which a network submission happens. -/
def videoSubmissions (present : String → Bool) (servers : List String)
    (jobs : List VideoJob) : List (String × String) :=
  if jobs.all (fun j => present j.source_image) then
    jobs.filterMap (fun j =>
      let server := (MODEL_SERVER j.model).getD WRIGHT
      if servers.contains server then some (j.filename, server) else none)
  else []

/-- C8 counterexample: of two video jobs, the first one's source artifact is
present and the second one's is absent; the claim says the first is still
submitted, but the code aborts the entire stage — no job is submitted at
all. -/
theorem video_stage_abort_cex :
    videoSubmissions (fun s => s = "a.png") [WRIGHT]
      [⟨"v1", "wan_i2v", "a.png"⟩, ⟨"v2", "wan_i2v", "missing.png"⟩] = [] ∧
    (fun s : String => decide (s = "a.png")) "a.png" = true ∧
    videoSubmissions (fun s => s = "a.png") [WRIGHT]
      [⟨"v1", "wan_i2v", "a.png"⟩] = [("v1", WRIGHT)] := by
  refine ⟨?_, rfl, ?_⟩ <;> decide

/-- C8 amended: when any job in the video stage has its declared dependency
artifact absent locally, the whole stage is aborted before any submission:
no job is submitted (including the jobs whose artifacts are present), and no
per-job `SubmissionRejected` outcome is recorded — the function just prints
an error and returns. -/
theorem video_stage_abort_all (present : String → Bool) (servers : List String)
    (jobs : List VideoJob)
    (h : ∃ j ∈ jobs, present j.source_image = false) :
    videoSubmissions present servers jobs = [] := by
  rcases h with ⟨j, hj, hfalse⟩
  have hall : jobs.all (fun j => present j.source_image) = false := by
    apply List.all_eq_false.mpr
    exact ⟨j, hj, by simp [hfalse]⟩
  simp [videoSubmissions, hall]

/-- Witness for `video_stage_abort_all` at a concrete input. -/
theorem video_stage_abort_all_app :
    videoSubmissions (fun s => s = "a.png") [WRIGHT]
      [⟨"v3", "wan_i2v", "a.png"⟩, ⟨"v4", "wan_i2v", "gone.png"⟩] = [] :=
  video_stage_abort_all _ _ _ ⟨⟨"v4", "wan_i2v", "gone.png"⟩, by decide, by decide⟩

/-- The body of a successful `/queue` response as used by `check_server`:
the lengths of the `queue_running` and `queue_pending` lists. -/
structure QueueData where
  queue_running : Nat
  queue_pending : Nat
deriving DecidableEq

/-- A worker's load: `running + pending` when reachable, `float("inf")`
when not. -/
inductive Load where
  | fin : Nat → Load
  | inf
deriving DecidableEq

/-- One worker's probed status, as built by `check_server` in
`comfyui_server.py`. -/
structure WorkerStatus where
  url : String
  online : Bool
  running : Nat
  pending : Nat
  load : Load
deriving DecidableEq

/-- The observable behaviour of one worker's `/queue` probe, distinguishing
the two failure modes of `check_server`: `caughtError` is anything the
source's except tuple `(URLError, OSError, JSONDecodeError, TimeoutError)`
catches — connection refused, timeout, a body that is not decodable JSON;
`wrongShape` is a body that decodes to JSON of an unexpected shape (a
non-dict, or a `queue_running` / `queue_pending` value `len()` rejects),
which raises `AttributeError` / `TypeError`, exceptions the except tuple
does not cover. -/
inductive ProbeResp where
  | ok : QueueData → ProbeResp
  | caughtError
  | wrongShape
deriving DecidableEq

/-- `check_server(url)` of `comfyui_server.py`: a well-shaped `/queue`
response yields an online record with `load = running + pending`; an error,
timeout or undecodable body is caught and yields an offline record with
infinite load; but a decodable response of the wrong shape raises an
`AttributeError` / `TypeError` that escapes the except tuple — modelled as
`none`, the exception propagating out of the function. -/
def check_server (url : String) (resp : ProbeResp) : Option WorkerStatus :=
  match resp with
  | .ok d => some ⟨url, true, d.queue_running, d.queue_pending,
      .fin (d.queue_running + d.queue_pending)⟩
  | .caughtError => some ⟨url, false, 0, 0, .inf⟩
  | .wrongShape => none

/-- The status `check_server` produces on its two non-raising paths. -/
def statusOf (url : String) (resp : ProbeResp) : WorkerStatus :=
  match resp with
  | .ok d => ⟨url, true, d.queue_running, d.queue_pending,
      .fin (d.queue_running + d.queue_pending)⟩
  | _ => ⟨url, false, 0, 0, .inf⟩

/-- The static worker configuration `SERVERS` of `comfyui_server.py`. -/
def SERVERS : List String :=
  ["http://wright.gazelle-galaxy.ts.net:8188",
   "http://wright.gazelle-galaxy.ts.net:8199",
   "http://neumann.gazelle-galaxy.ts.net:8188",
   "http://neumann.gazelle-galaxy.ts.net:8199"]

/-- The sort key `(not s["online"], s["load"])` of `check_all_servers`. -/
def skey (s : WorkerStatus) : Bool × Load := (!s.online, s.load)

/-- Order on loads, `inf` greatest. -/
def loadLeB : Load → Load → Bool
  | .fin m, .fin n => m ≤ n
  | .fin _, .inf => true
  | .inf, .fin _ => false
  | .inf, .inf => true

/-- Lexicographic order on sort keys, `false < true` on the offline flag as
in Python's tuple comparison of booleans. -/
def keyLeB : Bool × Load → Bool × Load → Bool
  | (b1, l1), (b2, l2) => if b1 = b2 then loadLeB l1 l2 else b2

/-- The key order as a relation on statuses. -/
def stLe (x y : WorkerStatus) : Prop := keyLeB (skey x) (skey y) = true

theorem loadLeB_total (x y : Load) : loadLeB x y = true ∨ loadLeB y x = true := by
  cases x <;> cases y <;> simp [loadLeB]
  omega

theorem loadLeB_trans {x y z : Load} :
    loadLeB x y = true → loadLeB y z = true → loadLeB x z = true := by
  cases x <;> cases y <;> cases z <;> simp [loadLeB]
  omega

theorem keyLeB_refl (x : Bool × Load) : keyLeB x x = true := by
  obtain ⟨b, l⟩ := x
  cases l <;> simp [keyLeB, loadLeB]

theorem keyLeB_total (x y : Bool × Load) : keyLeB x y = true ∨ keyLeB y x = true := by
  obtain ⟨b1, l1⟩ := x
  obtain ⟨b2, l2⟩ := y
  cases b1 <;> cases b2 <;> simp [keyLeB] <;> exact loadLeB_total _ _

theorem keyLeB_trans {x y z : Bool × Load} :
    keyLeB x y = true → keyLeB y z = true → keyLeB x z = true := by
  obtain ⟨b1, l1⟩ := x
  obtain ⟨b2, l2⟩ := y
  obtain ⟨b3, l3⟩ := z
  cases b1 <;> cases b2 <;> cases b3 <;> simp [keyLeB] <;> exact loadLeB_trans

/-- Stable insertion: the new element goes after every already-placed
element whose key is less than or equal, exactly as Python's stable
`list.sort` keeps earlier-appended equal-key elements first. -/
def sInsert (a : WorkerStatus) : List WorkerStatus → List WorkerStatus
  | [] => [a]
  | b :: l => if keyLeB (skey b) (skey a) then b :: sInsert a l else a :: b :: l

/-- The stable sort `results.sort(key=lambda s: (not s["online"], s["load"]))`,
applied to the results in the order their futures completed. -/
def sortByLoad (l : List WorkerStatus) : List WorkerStatus :=
  l.foldl (fun acc s => sInsert s acc) []

/-- The result-collection loop of `check_all_servers`: each
`future.result()` either appends that worker's status or re-raises the
exception `check_server` let escape, which then propagates out of
`check_all_servers` itself (`none`). -/
def collectStatuses (resp : String → ProbeResp) : List String → Option (List WorkerStatus)
  | [] => some []
  | u :: us =>
      match check_server u (resp u), collectStatuses resp us with
      | some s, some l => some (s :: l)
      | _, _ => none

/-- `check_all_servers()` of `comfyui_server.py`: probes every configured
server; results are appended in the order the concurrent futures complete
(`as_completed`), then stably sorted by `(not online, load)`.  `arrival` is
that completion order, some permutation of `SERVERS`; `resp` gives each
server's probe behaviour.  If any worker's probe raised an uncaught
exception, `future.result()` re-raises it and the whole call crashes
(`none`). -/
def check_all_servers (resp : String → ProbeResp) (arrival : List String) :
    Option (List WorkerStatus) :=
  (collectStatuses resp arrival).map sortByLoad

theorem mem_sInsert {x a : WorkerStatus} {l : List WorkerStatus} :
    x ∈ sInsert a l ↔ x = a ∨ x ∈ l := by
  induction l with
  | nil => simp [sInsert]
  | cons b l ih =>
      by_cases h : keyLeB (skey b) (skey a) = true
      · rw [sInsert, if_pos h, List.mem_cons, ih, List.mem_cons]
        tauto
      · rw [sInsert, if_neg h]
        exact List.mem_cons

theorem pairwise_sInsert {a : WorkerStatus} {l : List WorkerStatus}
    (hl : l.Pairwise stLe) : (sInsert a l).Pairwise stLe := by
  induction l with
  | nil => simp [sInsert]
  | cons b l ih =>
      rcases List.pairwise_cons.mp hl with ⟨hb, hl'⟩
      by_cases h : keyLeB (skey b) (skey a) = true
      · rw [sInsert, if_pos h]
        apply List.pairwise_cons.mpr
        refine ⟨?_, ih hl'⟩
        intro x hx
        rcases mem_sInsert.mp hx with rfl | hx'
        · exact h
        · exact hb x hx'
      · rw [sInsert, if_neg h]
        apply List.pairwise_cons.mpr
        refine ⟨?_, hl⟩
        have hab : keyLeB (skey a) (skey b) = true := by
          rcases keyLeB_total (skey a) (skey b) with h' | h'
          · exact h'
          · exact absurd h' h
        intro x hx
        rcases List.mem_cons.mp hx with rfl | hx'
        · exact hab
        · exact keyLeB_trans hab (hb x hx')

theorem perm_sInsert (a : WorkerStatus) (l : List WorkerStatus) :
    (sInsert a l).Perm (a :: l) := by
  induction l with
  | nil => exact List.Perm.refl _
  | cons b l ih =>
      by_cases h : keyLeB (skey b) (skey a) = true
      · rw [sInsert, if_pos h]
        exact (ih.cons b).trans (List.Perm.swap a b l)
      · rw [sInsert, if_neg h]

theorem pairwise_sortFold (l : List WorkerStatus) :
    ∀ acc, acc.Pairwise stLe →
      (l.foldl (fun acc s => sInsert s acc) acc).Pairwise stLe := by
  induction l with
  | nil => intro acc h; exact h
  | cons a l ih =>
      intro acc h
      simp only [List.foldl]
      exact ih _ (pairwise_sInsert h)

theorem perm_sortFold (l : List WorkerStatus) :
    ∀ acc, (l.foldl (fun acc s => sInsert s acc) acc).Perm (l ++ acc) := by
  induction l with
  | nil => intro acc; exact List.Perm.refl _
  | cons a l ih =>
      intro acc
      simp only [List.foldl]
      have h1 := ih (sInsert a acc)
      have h2 : (l ++ sInsert a acc).Perm (l ++ (a :: acc)) :=
        List.Perm.append_left l (perm_sInsert a acc)
      have h3 : (l ++ (a :: acc)).Perm (a :: (l ++ acc)) := List.perm_middle
      exact (h1.trans h2).trans h3

theorem filter_sInsert (a : WorkerStatus) (l : List WorkerStatus)
    (hl : l.Pairwise stLe) (k : Bool × Load) :
    (sInsert a l).filter (fun s => decide (skey s = k)) =
      if skey a = k then l.filter (fun s => decide (skey s = k)) ++ [a]
      else l.filter (fun s => decide (skey s = k)) := by
  induction l with
  | nil =>
      by_cases hak : skey a = k <;> simp [sInsert, List.filter_cons, hak]
  | cons b l ih =>
      rcases List.pairwise_cons.mp hl with ⟨hb, hl'⟩
      by_cases h : keyLeB (skey b) (skey a) = true
      · rw [sInsert, if_pos h, List.filter_cons, ih hl']
        by_cases hbk : skey b = k <;> by_cases hak : skey a = k <;>
          simp [List.filter_cons, hbk, hak]
      · rw [sInsert, if_neg h]
        have hne : ∀ x ∈ b :: l, skey x ≠ skey a := by
          intro x hx heq
          rcases List.mem_cons.mp hx with rfl | hx'
          · exact h (by rw [heq]; exact keyLeB_refl _)
          · have hbx := hb x hx'
            simp only [stLe] at hbx
            rw [heq] at hbx
            exact h hbx
        by_cases hak : skey a = k
        · have hfil : (b :: l).filter (fun s => decide (skey s = k)) = [] := by
            apply List.filter_eq_nil_iff.mpr
            intro x hx
            simp only [decide_eq_true_eq]
            rw [← hak]
            exact hne x hx
          rw [List.filter_cons]
          simp [hak, hfil]
        · rw [List.filter_cons]
          simp [hak]

theorem filter_sortFold (l : List WorkerStatus) :
    ∀ acc, acc.Pairwise stLe → ∀ k,
      (l.foldl (fun acc s => sInsert s acc) acc).filter (fun s => decide (skey s = k)) =
        acc.filter (fun s => decide (skey s = k)) ++
          l.filter (fun s => decide (skey s = k)) := by
  induction l with
  | nil => intro acc h k; simp
  | cons a l ih =>
      intro acc h k
      simp only [List.foldl]
      rw [ih _ (pairwise_sInsert h) k, filter_sInsert a acc h k, List.filter_cons]
      by_cases hak : skey a = k <;> simp [hak]

theorem check_server_some {url : String} {r : ProbeResp} (h : r ≠ .wrongShape) :
    check_server url r = some (statusOf url r) := by
  cases r with
  | ok d => rfl
  | caughtError => rfl
  | wrongShape => exact absurd rfl h

theorem collectStatuses_ok (resp : String → ProbeResp) (us : List String)
    (h : ∀ u ∈ us, resp u ≠ .wrongShape) :
    collectStatuses resp us = some (us.map (fun u => statusOf u (resp u))) := by
  induction us with
  | nil => rfl
  | cons u us ih =>
      have h1 : check_server u (resp u) = some (statusOf u (resp u)) :=
        check_server_some (h u (List.mem_cons_self _ _))
      have h2 := ih (fun x hx => h x (List.mem_cons_of_mem _ hx))
      simp only [collectStatuses, h1, h2, List.map_cons]

theorem collectStatuses_crash (resp : String → ProbeResp) (us : List String)
    (u : String) (hu : u ∈ us) (h : resp u = .wrongShape) :
    collectStatuses resp us = none := by
  induction us with
  | nil => cases hu
  | cons v vs ih =>
      rcases List.mem_cons.mp hu with rfl | hv
      · rw [collectStatuses, h]
        rfl
      · rw [collectStatuses, ih hv]
        cases check_server v (resp v) <;> rfl

theorem perm_sortByLoad (l : List WorkerStatus) : (sortByLoad l).Perm l := by
  have h := perm_sortFold l []
  simpa [sortByLoad] using h

/-- Probe behaviour under which wright:8188 answers with valid JSON of the
wrong shape while the others hit caught errors. -/
def wrongShapeResp : String → ProbeResp := fun u =>
  if u = "http://wright.gazelle-galaxy.ts.net:8188" then .wrongShape
  else .caughtError

/-- C5 counterexample: a worker that returns malformed data of the wrong
JSON shape (a decodable non-dict body, or non-sized queue fields) raises
`AttributeError` / `TypeError`, which `check_server`'s except tuple does not
catch; the exception is re-raised by `future.result()` and the probe as a
whole crashes — `check_all_servers` yields no status list at all, instead
of a complete list with that worker recorded offline with `load = +∞`. -/
theorem probe_wrong_shape_crash_cex :
    wrongShapeResp "http://wright.gazelle-galaxy.ts.net:8188" = .wrongShape ∧
    check_all_servers wrongShapeResp SERVERS = none := by
  refine ⟨by decide, by decide⟩

/-- C5 amended: provided no worker's response is decodable JSON of the wrong
shape, `check_all_servers` returns normally with exactly one status per
configured worker, and a worker whose probe hit a caught failure
(connection error, timeout, undecodable body) is recorded offline with
infinite load, that partial failure encoded in its own status; but a
wrong-shape response raises an `AttributeError` / `TypeError` outside the
except tuple and the probe operation as a whole raises, returning no status
list. -/
theorem probe_coverage_or_crash (resp : String → ProbeResp)
    (arrival : List String) (hp : arrival.Perm SERVERS) :
    ((∀ u ∈ SERVERS, resp u ≠ .wrongShape) →
      ∃ l, check_all_servers resp arrival = some l ∧
        l.length = SERVERS.length ∧
        ∀ url ∈ SERVERS, ∃ st ∈ l, st.url = url ∧
          (resp url = .caughtError → st.online = false ∧ st.load = .inf)) ∧
    (∀ u ∈ arrival, resp u = .wrongShape →
      check_all_servers resp arrival = none) := by
  constructor
  · intro h
    have hcol := collectStatuses_ok resp arrival
      (fun u hu => h u (hp.mem_iff.mp hu))
    refine ⟨sortByLoad (arrival.map (fun u => statusOf u (resp u))), ?_, ?_, ?_⟩
    · rw [check_all_servers, hcol]
      rfl
    · have hperm := perm_sortByLoad (arrival.map fun u => statusOf u (resp u))
      rw [hperm.length_eq, List.length_map, hp.length_eq]
    · intro url hurl
      have hmem : url ∈ arrival := hp.mem_iff.mpr hurl
      have hperm := perm_sortByLoad (arrival.map fun u => statusOf u (resp u))
      refine ⟨statusOf url (resp url),
        hperm.mem_iff.mpr (List.mem_map_of_mem _ hmem), ?_, ?_⟩
      · cases hru : resp url <;> rfl
      · intro hce
        rw [hce]
        exact ⟨rfl, rfl⟩
  · intro u hu hwrong
    rw [check_all_servers, collectStatuses_crash resp arrival u hu hwrong]
    rfl

/-- Witness for `probe_coverage_or_crash`: with every worker hitting a
caught connection error, a complete four-entry status list is returned;
with one worker returning a wrong-shape body, the probe crashes. -/
theorem probe_coverage_or_crash_app :
    (∃ l, check_all_servers (fun _ => ProbeResp.caughtError) SERVERS = some l ∧
        l.length = SERVERS.length ∧
        ∀ url ∈ SERVERS, ∃ st ∈ l, st.url = url ∧
          ((fun _ => ProbeResp.caughtError) url = .caughtError →
            st.online = false ∧ st.load = .inf)) ∧
    check_all_servers wrongShapeResp SERVERS = none := by
  constructor
  · exact (probe_coverage_or_crash (fun _ => .caughtError) SERVERS
      (List.Perm.refl _)).1 (by decide)
  · exact (probe_coverage_or_crash wrongShapeResp SERVERS (List.Perm.refl _)).2
      "http://wright.gazelle-galaxy.ts.net:8188" (by decide) (by decide)

/-- Probe behaviour with the two wright workers online at equal load 0 and
the two neumann workers hitting caught errors. -/
def tieResp : String → ProbeResp := fun u =>
  if u = "http://wright.gazelle-galaxy.ts.net:8188" then .ok ⟨0, 0⟩
  else if u = "http://wright.gazelle-galaxy.ts.net:8199" then .ok ⟨0, 0⟩
  else .caughtError

/-- A completion order of the probe futures in which the second configured
wright worker answers first. -/
def tieArrival : List String :=
  ["http://wright.gazelle-galaxy.ts.net:8199",
   "http://wright.gazelle-galaxy.ts.net:8188",
   "http://neumann.gazelle-galaxy.ts.net:8188",
   "http://neumann.gazelle-galaxy.ts.net:8199"]

/-- C6 counterexample: with both wright workers online at equal load (a tie)
and the offline neumann workers likewise tied, `check_all_servers` emits the
tied groups in future-completion order `tieArrival`, which differs from the
configuration order `SERVERS` — the sort is stable with respect to
`as_completed` order, not configuration order. -/
theorem probe_tie_order_cex :
    tieArrival.Perm SERVERS ∧
    (check_all_servers tieResp tieArrival).map (List.map WorkerStatus.url)
      = some tieArrival ∧
    (check_all_servers tieResp tieArrival).map (List.map WorkerStatus.load)
      = some [.fin 0, .fin 0, .inf, .inf] ∧
    tieArrival ≠ SERVERS := by
  refine ⟨by decide, by decide, by decide, by decide⟩

/-- C6 amended: for every response behaviour and every completion order of
the probe futures, whenever the probe returns a status list (`raw` being the
statuses collected in completion order), that list is `sortByLoad raw`,
ordered with all online workers first in ascending load order followed by
all offline workers (`stLe` pairwise on the key `(not online, load)`,
spelled out in the third conjunct), and workers with equal sort key —
equal-load online workers, and all offline workers — appear in the order
their probe futures completed, which is not in general the configuration
order. -/
theorem probe_order_online_first (resp : String → ProbeResp)
    (arrival : List String) (raw : List WorkerStatus)
    (hraw : collectStatuses resp arrival = some raw) :
    check_all_servers resp arrival = some (sortByLoad raw) ∧
    (sortByLoad raw).Pairwise stLe ∧
    (sortByLoad raw).Pairwise
      (fun x y => y.online = true → x.online = true ∧ loadLeB x.load y.load = true) ∧
    ∀ k, (sortByLoad raw).filter (fun s => decide (skey s = k)) =
      raw.filter (fun s => decide (skey s = k)) := by
  have hpw : (sortByLoad raw).Pairwise stLe :=
    pairwise_sortFold raw [] List.Pairwise.nil
  refine ⟨by rw [check_all_servers, hraw]; rfl, hpw, hpw.imp ?_, ?_⟩
  · intro x y hxy hy
    simp only [stLe, skey, keyLeB, hy] at hxy
    cases hx : x.online
    · rw [hx] at hxy
      simp at hxy
    · rw [hx] at hxy
      simp at hxy
      exact ⟨rfl, hxy⟩
  · intro k
    have h := filter_sortFold raw [] List.Pairwise.nil k
    simpa [sortByLoad] using h

/-- Witness for `probe_order_online_first` at the tie behaviour with
completion in configuration order. -/
theorem probe_order_online_first_app :
    check_all_servers tieResp SERVERS = some (sortByLoad
      [⟨"http://wright.gazelle-galaxy.ts.net:8188", true, 0, 0, .fin 0⟩,
       ⟨"http://wright.gazelle-galaxy.ts.net:8199", true, 0, 0, .fin 0⟩,
       ⟨"http://neumann.gazelle-galaxy.ts.net:8188", false, 0, 0, .inf⟩,
       ⟨"http://neumann.gazelle-galaxy.ts.net:8199", false, 0, 0, .inf⟩]) :=
  (probe_order_online_first tieResp SERVERS _ (by decide)).1

/-- One entry of the worker's output manifest: a remote filename, a storage
subfolder and a storage type, as read from
`result["outputs"][node_id][key]`. -/
structure OutFile where
  filename : String
  subfolder : String
  ftype : String
deriving DecidableEq

/-- The manifest of one producing node, with the three output categories the
retriever iterates over (`"images"`, `"videos"`, `"gifs"`; a category the
node does not emit is the `output.get(key, [])` default `[]`). -/
structure NodeOutput where
  images : List OutFile
  videos : List OutFile
  gifs : List OutFile
deriving DecidableEq

/-- The download order of the retrieval loop of `generate_images` /
`generate_videos`: nodes in manifest order, and within a node the `images`,
then `videos`, then `gifs` categories. -/
def flattenOutputs (outs : List (String × NodeOutput)) : List OutFile :=
  outs.flatMap (fun p => p.2.images ++ p.2.videos ++ p.2.gifs)

/-- The extension as `os.path.splitext(name)[1]` finds it: the suffix from
the last dot onwards, provided some non-dot character precedes that dot
(leading dots never start an extension); `seen` records whether a non-dot
character has been passed. -/
def extSearch : List Char → Bool → Option (List Char)
  | [], _ => none
  | c :: rest, seen =>
      if c = '.' then
        match extSearch rest seen with
        | some e => some e
        | none => if seen then some ('.' :: rest) else none
      else
        extSearch rest true

/-- `os.path.splitext(name)[1]` for the plain filenames of the manifest. -/
def extOf (name : String) : String :=
  match extSearch name.toList false with
  | some e => String.mk e
  | none => ""

/-- `os.path.splitext(item["filename"])[1] or dflt`: the original extension,
or the default (`".png"` in `generate_images`, `".webp"` in
`generate_videos`) when the filename has none. -/
def extKey (dflt name : String) : String :=
  if extOf name = "" then dflt else extOf name

/-- The deterministic local save path `job["filename"] + ext` (the constant
`TEST_DIR` directory prefix elided). -/
def savePath (jobid dflt : String) (f : OutFile) : String :=
  jobid ++ extKey dflt f.filename

/-- The retrieval loop body for one completed job: download every flattened
manifest entry in order via `download_file` (per-entry result given by
`fetch`; `none` is a raised download error), writing each to its
`savePath`.  The first failing download aborts the remaining entries of
this job (the per-job `except` in the source), but the files already
written stay on disk.  Returns the chronological list of file writes and
whether the whole loop completed. -/
def runRetrieve (fetch : OutFile → Option String) (jobid dflt : String) :
    List OutFile → List (String × String) × Bool
  | [] => ([], true)
  | f :: fs =>
      match fetch f with
      | some content =>
          ((savePath jobid dflt f, content) ::
            (runRetrieve fetch jobid dflt fs).1,
           (runRetrieve fetch jobid dflt fs).2)
      | none => ([], false)

/-- The local filesystem after a chronological list of writes: the content
at a path is that of the last write to it (`urlretrieve` overwrites). -/
def finalFS : List (String × String) → String → Option String
  | [], _ => none
  | (q, c) :: ws, p =>
      match finalFS ws p with
      | some c' => some c'
      | none => if q = p then some c else none

/-- The last manifest entry whose save path is `p`. -/
def lastWithPath (jobid dflt p : String) : List OutFile → Option OutFile
  | [] => none
  | f :: fs =>
      match lastWithPath jobid dflt p fs with
      | some g => some g
      | none => if savePath jobid dflt f = p then some f else none

theorem runRetrieve_all_ok (fetch : OutFile → Option String) (jobid dflt : String)
    (fl : List OutFile) (h : ∀ f ∈ fl, (fetch f).isSome) :
    runRetrieve fetch jobid dflt fl =
      (fl.map (fun f => (savePath jobid dflt f, (fetch f).getD "")), true) := by
  induction fl with
  | nil => rfl
  | cons f fs ih =>
      have hf := h f (List.mem_cons_self _ _)
      rcases Option.isSome_iff_exists.mp hf with ⟨c, hc⟩
      simp only [runRetrieve, hc, List.map_cons]
      rw [ih (fun x hx => h x (List.mem_cons_of_mem _ hx))]
      simp [hc]

theorem runRetrieve_break (fetch : OutFile → Option String) (jobid dflt : String)
    (pre : List OutFile) (f : OutFile) (rest : List OutFile)
    (hpre : ∀ g ∈ pre, (fetch g).isSome) (hf : fetch f = none) :
    runRetrieve fetch jobid dflt (pre ++ f :: rest) =
      (pre.map (fun g => (savePath jobid dflt g, (fetch g).getD "")), false) := by
  induction pre with
  | nil => simp [runRetrieve, hf]
  | cons g gs ih =>
      have hg := hpre g (List.mem_cons_self _ _)
      rcases Option.isSome_iff_exists.mp hg with ⟨c, hc⟩
      simp only [List.cons_append, runRetrieve, hc, List.map_cons, List.append_eq]
      rw [ih (fun x hx => hpre x (List.mem_cons_of_mem _ hx))]
      simp [hc]

theorem finalFS_writes (cf : OutFile → String) (jobid dflt p : String)
    (l : List OutFile) :
    finalFS (l.map (fun f => (savePath jobid dflt f, cf f))) p =
      (lastWithPath jobid dflt p l).map cf := by
  induction l with
  | nil => rfl
  | cons f fs ih =>
      simp only [List.map_cons, finalFS, lastWithPath]
      rw [ih]
      cases h : lastWithPath jobid dflt p fs with
      | some g => simp
      | none =>
          by_cases hp : savePath jobid dflt f = p <;> simp [hp]

/-- C9 counterexample: a manifest entry whose remote filename has no
extension is not saved under "client identifier plus the file's original
extension" (which would be the bare identifier `"job"`): the code falls
back to `".png"` and writes `"job.png"`. -/
theorem retriever_default_ext_cex :
    extOf "gentest" = "" ∧
    (runRetrieve (fun _ => some "data") "job" ".png"
        (flattenOutputs [("10", ⟨[⟨"gentest", "", "output"⟩], [], []⟩)])).1
      = [("job.png", "data")] ∧
    "job.png" ≠ "job" ++ extOf "gentest" := by
  refine ⟨by decide, by decide, by decide⟩

/-- C9 amended: the retriever fetches every output file listed in the
manifest regardless of the producing node, across the `images`, `videos`
and `gifs` categories, saving each under the job's client identifier plus
the file's original extension — or plus the `".png"` default when the
filename has no extension; and when one download fails, the writes already
performed for the same job are kept (only the remaining entries are
skipped). -/
theorem retriever_fetches_all_preserves (fetch : OutFile → Option String)
    (jobid : String) (outs : List (String × NodeOutput)) :
    ((∀ f ∈ flattenOutputs outs, (fetch f).isSome) →
      runRetrieve fetch jobid ".png" (flattenOutputs outs) =
        ((flattenOutputs outs).map
          (fun f => (savePath jobid ".png" f, (fetch f).getD "")), true)) ∧
    (∀ (pre : List OutFile) (f : OutFile) (rest : List OutFile),
      flattenOutputs outs = pre ++ f :: rest →
      (∀ g ∈ pre, (fetch g).isSome) → fetch f = none →
      runRetrieve fetch jobid ".png" (flattenOutputs outs) =
        (pre.map (fun g => (savePath jobid ".png" g, (fetch g).getD "")), false)) := by
  constructor
  · intro h
    exact runRetrieve_all_ok fetch jobid ".png" _ h
  · intro pre f rest heq hpre hf
    rw [heq]
    exact runRetrieve_break fetch jobid ".png" pre f rest hpre hf

/-- Witness for `retriever_fetches_all_preserves`: a job with two output
nodes (an image and a video) has both files fetched and saved under the
client identifier with their own extensions. -/
theorem retriever_fetches_all_preserves_app :
    runRetrieve (fun _ => some "data") "job" ".png"
        (flattenOutputs
          [("9", ⟨[⟨"gentest_00001_.png", "", "output"⟩], [], []⟩),
           ("14", ⟨[], [⟨"gentest_vid_00001_.webp", "", "output"⟩], []⟩)]) =
      ([("job.png", "data"), ("job.webp", "data")], true) := by
  have h := (retriever_fetches_all_preserves (fun _ => some "data") "job"
    [("9", ⟨[⟨"gentest_00001_.png", "", "output"⟩], [], []⟩),
     ("14", ⟨[], [⟨"gentest_vid_00001_.webp", "", "output"⟩], []⟩)]).1 (by decide)
  rw [h]
  decide

/-- C10: when the manifest of one job lists several output files sharing the
same extension key, every one of them is written to the identical local path
(the job's client identifier plus that extension), the content finally on
disk at that path is the last such entry's (each later download overwrites
the earlier one), and every written path is of the form identifier-plus-
extension-key — so at most one local file per distinct extension remains
for the job. -/
theorem retriever_same_ext_overwrites (fetch : OutFile → Option String)
    (jobid : String) (outs : List (String × NodeOutput))
    (hall : ∀ f ∈ flattenOutputs outs, (fetch f).isSome) :
    (∀ f ∈ flattenOutputs outs, ∀ g ∈ flattenOutputs outs,
      extKey ".png" f.filename = extKey ".png" g.filename →
      savePath jobid ".png" f = savePath jobid ".png" g) ∧
    (∀ f ∈ flattenOutputs outs,
      finalFS (runRetrieve fetch jobid ".png" (flattenOutputs outs)).1
          (savePath jobid ".png" f) =
        (lastWithPath jobid ".png" (savePath jobid ".png" f)
          (flattenOutputs outs)).map (fun g => (fetch g).getD "")) ∧
    (∀ p ∈ ((runRetrieve fetch jobid ".png" (flattenOutputs outs)).1).map Prod.fst,
      ∃ d ∈ flattenOutputs outs, p = jobid ++ extKey ".png" d.filename) := by
  have hrun := runRetrieve_all_ok fetch jobid ".png" _ hall
  refine ⟨?_, ?_, ?_⟩
  · intro f _ g _ hfg
    simp [savePath, hfg]
  · intro f _
    rw [hrun]
    exact finalFS_writes (fun g => (fetch g).getD "") jobid ".png" _ _
  · intro p hp
    rw [hrun] at hp
    simp only [List.map_map] at hp
    rcases List.mem_map.mp hp with ⟨d, hd, hpd⟩
    refine ⟨d, hd, ?_⟩
    rw [← hpd]
    rfl

/-- Witness for `retriever_same_ext_overwrites`: two `.png` entries of one
job collapse onto the single path `"job.png"`, and the second entry's
content is what remains. -/
theorem retriever_same_ext_overwrites_app :
    savePath "job" ".png" ⟨"a.png", "", "output"⟩
      = savePath "job" ".png" ⟨"b.png", "", "output"⟩ ∧
    finalFS (runRetrieve (fun f => some f.filename) "job" ".png"
        (flattenOutputs [("10", ⟨[⟨"a.png", "", "output"⟩, ⟨"b.png", "", "output"⟩], [], []⟩)])).1
      (savePath "job" ".png" ⟨"a.png", "", "output"⟩) = some "b.png" := by
  have h := retriever_same_ext_overwrites (fun f => some f.filename) "job"
    [("10", ⟨[⟨"a.png", "", "output"⟩, ⟨"b.png", "", "output"⟩], [], []⟩)] (by decide)
  constructor
  · exact h.1 ⟨"a.png", "", "output"⟩ (by decide) ⟨"b.png", "", "output"⟩ (by decide) (by decide)
  · have h2 := h.2.1 ⟨"a.png", "", "output"⟩ (by decide)
    rw [h2]
    decide
